import Mathlib

/-!
Shallow embedding of `central_server.py` (djkaif/status_monitor).

The server keeps three logical stores: a Buffer table `heartbeats`
(raw accepted signals, UNIQUE on the dedup column `seq`), a Registry
table `node_status` (node PRIMARY KEY), and an Archive table
`heartbeats_archive` (UNIQUE on `seq`); plus process-level state
`current_batch_id` and `event_queue`.  Each table is embedded as a
Lean list in row-insertion order.  Every request handler and each
background-task tick body runs under one global lock in the source,
so the system is a sequential transition system over `ServerState`.
Wall-clock reads (`time.time()`) and the freshly generated batch id
(`uuid.uuid4()`) are passed to the operations as explicit parameters.
-/

namespace Central

/-- Config: `OFFLINE_THRESHOLD = int(os.getenv("OFFLINE_THRESHOLD", 90))`
(default value; the claims are about the threshold symbolically, the
default stands in for the configured value). -/
def OFFLINE_THRESHOLD : Int := 90

/-- Config: `BUFFER_ROTATE_SECONDS = 10 * 60`. -/
def BUFFER_ROTATE_SECONDS : Int := 10 * 60

/-- The two values the `status` column of `node_status` ever holds
(written only as the literals `'online'` / `'offline'`). -/
inductive Liveness where
  | online
  | offline
deriving DecidableEq, Repr, Inhabited

/-- One row of the `heartbeats` table (and of `heartbeats_archive`):
`(node, node_type, received_at, seq)`.  The AUTOINCREMENT id column is
not observable through any endpoint and is omitted. -/
structure HB where
  node : String
  node_type : String
  received_at : Int
  seq : String
deriving DecidableEq, Repr, Inhabited

/-- One row of the `node_status` table. -/
structure NodeStatus where
  node : String
  node_type : String
  last_seen : Int
  status : Liveness
deriving DecidableEq, Repr, Inhabited

/-- One entry of the in-process `event_queue` list:
`{"node": .., "type": "online"/"offline", "ts": .., "node_type": ..}`. -/
structure Event where
  node : String
  type : String
  ts : Int
  node_type : String
deriving DecidableEq, Repr, Inhabited

/-- The whole mutable state shared by the handlers and background tasks. -/
structure ServerState where
  heartbeats : List HB
  node_status : List NodeStatus
  heartbeats_archive : List HB
  current_batch_id : Option String
  event_queue : List Event
deriving DecidableEq, Repr, Inhabited

/-- Python truthiness test `not x` for an optional string
(`data.get(..)`): true on a missing field and on the empty string. -/
def falsy : Option String → Bool
  | none => true
  | some s => s == ""

/-- The dedup key: `seq = f"{node}:{now}"`. -/
def mkSeq (node : String) (now : Int) : String :=
  node ++ ":" ++ toString now

/-- Whether some row of `l` already carries the dedup key `sq`
(the UNIQUE-constraint check on the `seq` column). -/
def hasSeq (l : List HB) (sq : String) : Bool :=
  l.any (fun h => h.seq == sq)

/-- An `INSERT` guarded by the UNIQUE constraint on `seq`: the row is
appended unless its dedup key is already present, in which case the
insert is silently skipped (`except sqlite3.IntegrityError: pass` in
the Buffer, `INSERT OR IGNORE` in the Archive). -/
def insertIgnore (l : List HB) (h : HB) : List HB :=
  if hasSeq l h.seq then l else l ++ [h]

/-- The `executemany("INSERT OR IGNORE INTO heartbeats_archive ...", rows)` call:
the rows are processed in order, each skipped when its dedup key is
already in the archive (including keys added by earlier rows of the
same batch). -/
def insertIgnoreAll (arc : List HB) (rows : List HB) : List HB :=
  rows.foldl insertIgnore arc

/-- Row lookup by the primary key: `SELECT status ... WHERE node=?`. -/
def registryLookup (reg : List NodeStatus) (node : String) : Option NodeStatus :=
  reg.find? (fun r => r.node == node)

/-- The upsert of step 3 of the heartbeat handler:
`INSERT INTO node_status (node, node_type, last_seen, status) VALUES (?, ?, ?, 'online')
 ON CONFLICT(node) DO UPDATE SET last_seen=excluded.last_seen, status='online'`.
Note that on conflict only `last_seen` and `status` are updated; the
stored `node_type` of an existing row is left as it was. -/
def registryUpsert (reg : List NodeStatus) (node node_type : String) (now : Int) :
    List NodeStatus :=
  if (registryLookup reg node).isSome then
    reg.map (fun r => if r.node == node
      then { r with last_seen := now, status := .online } else r)
  else
    reg ++ [⟨node, node_type, now, .online⟩]

/-- Outcome of `POST /heartbeat` (past the API-key check):
`400 {"error": "invalid payload"}` or `200 {"ok": true}`. -/
inductive HBResp where
  | invalid_payload
  | ok
deriving DecidableEq, Repr, Inhabited

/-- The JSON body of `POST /heartbeat` as the handler reads it.  The
interface contract mentions an optional `timestamp` field; the handler
itself only ever reads `node` and `node_type`. -/
structure HeartbeatPayload where
  node : Option String
  node_type : Option String
  timestamp : Option Int
deriving DecidableEq, Repr, Inhabited

/-- The `POST /heartbeat` handler.  `now = int(time.time())` is passed
in explicitly.  Steps: validate, insert into the Buffer ignoring a
duplicate `seq`, enqueue an online event when the node is unknown or
currently offline, then upsert `node_status`. -/
def heartbeat (payload : HeartbeatPayload) (now : Int) (s : ServerState) :
    HBResp × ServerState :=
  if falsy payload.node || falsy payload.node_type then
    (.invalid_payload, s)
  else
    let node := payload.node.getD ""
    let node_type := payload.node_type.getD ""
    let seq := mkSeq node now
    let buf := insertIgnore s.heartbeats ⟨node, node_type, now, seq⟩
    let row := registryLookup s.node_status node
    let events :=
      if row.isNone || row.map NodeStatus.status == some .offline then
        s.event_queue ++ [⟨node, "online", now, node_type⟩]
      else
        s.event_queue
    (.ok,
      { s with
        heartbeats := buf
        node_status := registryUpsert s.node_status node node_type now
        event_queue := events })

/-- The demotion condition of one monitor tick:
`status = 'online' AND (? - last_seen) > ?` with `(now, OFFLINE_THRESHOLD)`. -/
def isSilent (now : Int) (r : NodeStatus) : Bool :=
  r.status == .online && now - r.last_seen > OFFLINE_THRESHOLD

/-- One tick of the `monitor_nodes` background loop: select the rows
that are online but silent for more than the threshold, mark each
offline (leaving `last_seen` as it was), and append one offline event
per selected row. -/
def monitor_nodes (now : Int) (s : ServerState) : ServerState :=
  let offline_nodes := s.node_status.filter (isSilent now)
  { s with
    node_status := s.node_status.map (fun r =>
      if isSilent now r then { r with status := .offline } else r)
    event_queue := s.event_queue ++
      offline_nodes.map (fun r => ⟨r.node, "offline", now, r.node_type⟩) }

/-- The query `SELECT MIN(received_at) FROM heartbeats`: `none` on an empty table. -/
def minReceived : List HB → Option Int
  | [] => none
  | h :: t => some (t.foldl (fun m x => min m x.received_at) h.received_at)

/-- One tick of the `buffer_rotator` background loop.  The handler
tests the MIN row with Python truthiness (`if not row or not row[0]`),
so a minimum `received_at` of `0` is conflated with an empty Buffer;
it then no-ops while `now - oldest < BUFFER_ROTATE_SECONDS`, and
otherwise copies every Buffer row into the Archive with
insert-or-ignore on `seq` and deletes all Buffer rows. -/
def buffer_rotator (now : Int) (s : ServerState) : ServerState :=
  match minReceived s.heartbeats with
  | none => s
  | some oldest =>
    if oldest == 0 then s
    else if now - oldest < BUFFER_ROTATE_SECONDS then s
    else
      { s with
        heartbeats_archive := insertIgnoreAll s.heartbeats_archive s.heartbeats
        heartbeats := [] }

/-- The JSON body returned by `GET /archive/pull`: either
`{"count": 0, "data": []}` (no `batch_id` key) or
`{"batch_id": .., "count": .., "data": [..]}`. -/
structure PullResp where
  batch_id : Option String
  count : Nat
  data : List HB
deriving DecidableEq, Repr, Inhabited

/-- The `GET /archive/pull` handler.  `newId = str(uuid.uuid4())` is
passed in explicitly.  It reads the whole Archive; when empty it
returns count 0 touching nothing, otherwise it stores the fresh batch
id and returns the snapshot. -/
def pull_archive (newId : String) (s : ServerState) : PullResp × ServerState :=
  let rows := s.heartbeats_archive
  if rows.isEmpty then
    ({ batch_id := none, count := 0, data := [] }, s)
  else
    ({ batch_id := some newId, count := rows.length, data := rows },
     { s with current_batch_id := some newId })

/-- Outcome of `POST /archive/ack`:
`400 {"error": "invalid batch"}` or `200 {"ok": true}`. -/
inductive AckResp where
  | invalid_batch
  | ok
deriving DecidableEq, Repr, Inhabited

/-- The `POST /archive/ack` handler:
`if not batch_id or batch_id != current_batch_id` reject with 400 and
no mutation; otherwise delete every Archive row and reset
`current_batch_id` to `None`. -/
def archive_ack (batch_id : Option String) (s : ServerState) :
    AckResp × ServerState :=
  if falsy batch_id || batch_id != s.current_batch_id then
    (.invalid_batch, s)
  else
    (.ok, { s with heartbeats_archive := [], current_batch_id := none })

/-- The `GET /events` handler: return the queued events, clear the queue. -/
def get_events (s : ServerState) : List Event × ServerState :=
  (s.event_queue, { s with event_queue := [] })

/-- The process state right after `init_dbs()` ran and before any
request: both database files were deleted and recreated with empty
tables, `current_batch_id = None`, `event_queue = []`. -/
def initState : ServerState :=
  { heartbeats := []
    node_status := []
    heartbeats_archive := []
    current_batch_id := none
    event_queue := [] }

/-- Startup `init_dbs()`, viewed as a map from whatever state the
previous run persisted to the state the new process starts from: the
Buffer and Archive database files are deleted (`os.remove`) and empty
schemas recreated, so nothing of the previous run survives. -/
def init_dbs (_prev : ServerState) : ServerState := initState

/-- One atomic transition of the system: any single request handler or
background-tick body (each runs under the one global `db_lock`).  The
fresh batch id handed to a pull is a `str(uuid.uuid4())`, hence never
the empty string. -/
inductive Step : ServerState → ServerState → Prop where
  | hb (p : HeartbeatPayload) (now : Int) (s : ServerState) :
      Step s (heartbeat p now s).2
  | monitor (now : Int) (s : ServerState) :
      Step s (monitor_nodes now s)
  | rotate (now : Int) (s : ServerState) :
      Step s (buffer_rotator now s)
  | pull (newId : String) (s : ServerState) (h : newId ≠ "") :
      Step s (pull_archive newId s).2
  | ack (bid : Option String) (s : ServerState) :
      Step s (archive_ack bid s).2
  | events (s : ServerState) :
      Step s (get_events s).2

/-- A state the server can be in: reachable from the freshly
initialized state by any sequence of handler calls and ticks. -/
def Reachable (s : ServerState) : Prop :=
  Relation.ReflTransGen Step initState s

/-! ### Frame lemmas: which stores each operation leaves alone -/

lemma heartbeat_archive (p : HeartbeatPayload) (now : Int) (s : ServerState) :
    (heartbeat p now s).2.heartbeats_archive = s.heartbeats_archive := by
  unfold heartbeat; split <;> rfl

lemma heartbeat_batch (p : HeartbeatPayload) (now : Int) (s : ServerState) :
    (heartbeat p now s).2.current_batch_id = s.current_batch_id := by
  unfold heartbeat; split <;> rfl

lemma monitor_archive (now : Int) (s : ServerState) :
    (monitor_nodes now s).heartbeats_archive = s.heartbeats_archive := rfl

lemma monitor_batch (now : Int) (s : ServerState) :
    (monitor_nodes now s).current_batch_id = s.current_batch_id := rfl

lemma rotator_batch (now : Int) (s : ServerState) :
    (buffer_rotator now s).current_batch_id = s.current_batch_id := by
  unfold buffer_rotator
  cases minReceived s.heartbeats with
  | none => rfl
  | some oldest => simp only []; split <;> [rfl; skip]; split <;> rfl

lemma events_archive (s : ServerState) :
    (get_events s).2.heartbeats_archive = s.heartbeats_archive := rfl

lemma events_batch (s : ServerState) :
    (get_events s).2.current_batch_id = s.current_batch_id := rfl

lemma pull_archive_frame (newId : String) (s : ServerState) :
    (pull_archive newId s).2.heartbeats_archive = s.heartbeats_archive := by
  unfold pull_archive
  by_cases h : s.heartbeats_archive.isEmpty <;> simp [h]

lemma pull_batch (newId : String) (s : ServerState) :
    (pull_archive newId s).2.current_batch_id =
      if s.heartbeats_archive.isEmpty then s.current_batch_id else some newId := by
  unfold pull_archive
  by_cases h : s.heartbeats_archive.isEmpty <;> simp [h]

lemma ack_fail (bid : Option String) (s : ServerState)
    (h : (falsy bid || bid != s.current_batch_id) = true) :
    archive_ack bid s = (.invalid_batch, s) := by
  unfold archive_ack; simp [h]

lemma ack_ok (bid : Option String) (s : ServerState)
    (h : ¬((falsy bid || bid != s.current_batch_id) = true)) :
    archive_ack bid s =
      (.ok, { s with heartbeats_archive := [], current_batch_id := none }) := by
  unfold archive_ack; rw [if_neg h]

/-! ### insert-or-ignore lemmas -/

lemma insertIgnore_ne_nil (l : List HB) (h : HB) (hl : l ≠ []) :
    insertIgnore l h ≠ [] := by
  unfold insertIgnore; split
  · exact hl
  · simp

lemma insertIgnoreAll_ne_nil (rows : List HB) (arc : List HB) (ha : arc ≠ []) :
    insertIgnoreAll arc rows ≠ [] := by
  induction rows generalizing arc with
  | nil => exact ha
  | cons h t ih => exact ih (insertIgnore arc h) (insertIgnore_ne_nil arc h ha)

lemma rotator_archive_ne_nil (now : Int) (s : ServerState)
    (ha : s.heartbeats_archive ≠ []) :
    (buffer_rotator now s).heartbeats_archive ≠ [] := by
  unfold buffer_rotator
  cases minReceived s.heartbeats with
  | none => exact ha
  | some oldest =>
    simp only []
    split
    · exact ha
    · split
      · exact ha
      · exact insertIgnoreAll_ne_nil s.heartbeats s.heartbeats_archive ha

/-! ### Dedup-key counting lemmas -/

lemma hasSeq_append (l₁ l₂ : List HB) (x : String) :
    hasSeq (l₁ ++ l₂) x = (hasSeq l₁ x || hasSeq l₂ x) := by
  simp [hasSeq, List.any_append]

lemma hasSeq_insertIgnore (l : List HB) (h : HB) (x : String) :
    hasSeq (insertIgnore l h) x = (hasSeq l x || h.seq == x) := by
  unfold insertIgnore
  split
  · next hmem =>
    by_cases hx : h.seq = x
    · subst hx; simp [hmem]
    · simp [hx]
  · simp [hasSeq_append, hasSeq]

lemma length_insertIgnore (l : List HB) (h : HB) :
    (insertIgnore l h).length = l.length + (if hasSeq l h.seq then 0 else 1) := by
  unfold insertIgnore
  split <;> simp_all

lemma mem_insertIgnore {l : List HB} {h h' : HB} (hm : h' ∈ insertIgnore l h) :
    h' ∈ l ∨ h' = h := by
  unfold insertIgnore at hm
  split at hm
  · exact Or.inl hm
  · simpa using hm

lemma seq_nodup_insertIgnore {l : List HB} (h : HB)
    (hnd : (l.map HB.seq).Nodup) : ((insertIgnore l h).map HB.seq).Nodup := by
  unfold insertIgnore
  split
  · exact hnd
  · next hmem =>
    have hnot : h.seq ∉ l.map HB.seq := by
      intro hc
      rcases List.mem_map.1 hc with ⟨y, hy, hys⟩
      apply hmem
      simp only [hasSeq, List.any_eq_true]
      exact ⟨y, hy, by simp [hys]⟩
    rw [List.map_append, List.map_cons, List.map_nil, List.nodup_append]
    refine ⟨hnd, List.nodup_singleton _, fun a ha hb => ?_⟩
    simp only [List.mem_singleton] at hb
    exact hnot (hb ▸ ha)

lemma countP_seq_nodup (l : List HB) (x : String)
    (hnd : (l.map HB.seq).Nodup) :
    l.countP (fun h => h.seq == x) = if hasSeq l x then 1 else 0 := by
  induction l with
  | nil => simp [hasSeq]
  | cons a t ih =>
    rw [List.map_cons, List.nodup_cons] at hnd
    rw [List.countP_cons]
    by_cases hx : a.seq = x
    · subst hx
      have ht : hasSeq t a.seq = false := by
        simp only [hasSeq, List.any_eq_false]
        intro y hy
        simp only [beq_iff_eq]
        intro hc
        exact hnd.1 (List.mem_map.2 ⟨y, hy, hc⟩)
      simp only [ih hnd.2, ht, if_false, beq_self_eq_true, if_true]
      have hhead : hasSeq (a :: t) a.seq = true := by simp [hasSeq]
      simp [hhead]
    · have hb : (a.seq == x) = false := by simpa using hx
      have hcons : hasSeq (a :: t) x = hasSeq t x := by simp [hasSeq, hb]
      simp [hb, hcons, ih hnd.2]

lemma hasSeq_insertIgnoreAll (arc rows : List HB) (x : String) :
    hasSeq (insertIgnoreAll arc rows) x = (hasSeq arc x || hasSeq rows x) := by
  induction rows generalizing arc with
  | nil => simp [insertIgnoreAll, hasSeq]
  | cons h t ih =>
    have hstep : hasSeq (h :: t) x = (h.seq == x || hasSeq t x) := by
      simp [hasSeq]
    rw [insertIgnoreAll, List.foldl_cons]
    rw [show (List.foldl insertIgnore (insertIgnore arc h) t)
          = insertIgnoreAll (insertIgnore arc h) t from rfl]
    rw [ih, hasSeq_insertIgnore, hstep]
    cases hasSeq arc x <;> cases (h.seq == x) <;> cases hasSeq t x <;> rfl

/-- Archive growth of one `executemany` insert-or-ignore: when the
incoming rows carry pairwise-distinct dedup keys, the archive length
grows by exactly the number of rows whose key was not yet present. -/
lemma length_insertIgnoreAll (rows : List HB) (arc : List HB)
    (hnd : (rows.map HB.seq).Nodup) :
    (insertIgnoreAll arc rows).length =
      arc.length + (rows.filter (fun h => !(hasSeq arc h.seq))).length := by
  induction rows generalizing arc with
  | nil => simp [insertIgnoreAll]
  | cons h t ih =>
    rw [List.map_cons, List.nodup_cons] at hnd
    rw [insertIgnoreAll, List.foldl_cons]
    rw [show (List.foldl insertIgnore (insertIgnore arc h) t)
          = insertIgnoreAll (insertIgnore arc h) t from rfl]
    rw [ih (insertIgnore arc h) hnd.2]
    have hft : t.filter (fun x => !(hasSeq (insertIgnore arc h) x.seq))
        = t.filter (fun x => !(hasSeq arc x.seq)) := by
      apply List.filter_congr
      intro x hx
      have hne : (h.seq == x.seq) = false := by
        simp only [beq_eq_false_iff_ne]
        intro hc
        exact hnd.1 (List.mem_map.2 ⟨x, hx, hc.symm⟩)
      rw [hasSeq_insertIgnore, hne, Bool.or_false]
    rw [hft, length_insertIgnore]
    by_cases hh : hasSeq arc h.seq
    · simp [hh, List.filter_cons]
    · simp [hh, List.filter_cons]
      omega

/-! ### Registry lookup / upsert lemmas -/

lemma registryLookup_map_update (reg : List NodeStatus) (n : String) (now : Int) :
    registryLookup
      (reg.map (fun r => if r.node == n
        then { r with last_seen := now, status := .online } else r)) n
      = (registryLookup reg n).map
          (fun r => { r with last_seen := now, status := .online }) := by
  induction reg with
  | nil => rfl
  | cons r t ih =>
    by_cases hr : r.node = n
    · simp [registryLookup, List.find?_cons, hr]
    · have hb : (r.node == n) = false := by simpa using hr
      unfold registryLookup at ih ⊢
      rw [List.map_cons]
      have hhead : (if r.node == n
          then { r with last_seen := now, status := Liveness.online } else r) = r := by
        simp [hb]
      rw [hhead]
      simp only [List.find?_cons, hb]
      exact ih

lemma registryLookup_append_none (reg : List NodeStatus) (n : String)
    (h : registryLookup reg n = none) (r : NodeStatus) :
    registryLookup (reg ++ [r]) n = if r.node == n then some r else none := by
  unfold registryLookup at *
  rw [List.find?_append, h]
  by_cases hc : r.node = n
  · simp [List.find?, hc]
  · have hb : (r.node == n) = false := by simpa using hc
    simp [List.find?, hb, hc]

/-- Net effect of the heartbeat upsert on the row looked up by the
signal's node: `last_seen` and `status` are freshly written, while the
stored `node_type` survives when the node already had a row. -/
lemma registryLookup_upsert (reg : List NodeStatus) (n nt : String) (now : Int) :
    registryLookup (registryUpsert reg n nt now) n =
      some ⟨n, ((registryLookup reg n).map NodeStatus.node_type).getD nt,
            now, .online⟩ := by
  unfold registryUpsert
  cases hfind : registryLookup reg n with
  | none => simp [hfind, registryLookup_append_none reg n hfind]
  | some r =>
    have hr : r.node = n := by
      have := List.find?_some hfind
      simpa using this
    simp only [hfind, Option.isSome_some, if_true, registryLookup_map_update,
      Option.map_some]
    cases r
    simp_all

/-! ### Reachability invariants -/

/-- In every reachable state, a pending batch token was produced by
`str(uuid.uuid4())` and is therefore never the empty string. -/
lemma reachable_batch_ne_empty {s : ServerState} (hr : Reachable s) :
    s.current_batch_id ≠ some "" := by
  induction hr with
  | refl => simp [initState]
  | @tail b c hab hstep ih =>
    cases hstep with
    | hb p now hs => rw [heartbeat_batch]; exact ih
    | monitor now hs => rw [monitor_batch]; exact ih
    | rotate now hs => rw [rotator_batch]; exact ih
    | pull newId hs hId =>
      rw [pull_batch]
      by_cases h : b.heartbeats_archive.isEmpty
      · simpa [h] using ih
      · simpa [h] using hId
    | ack bid hs =>
      by_cases h : (falsy bid || bid != b.current_batch_id) = true
      · rw [ack_fail bid b h]; exact ih
      · rw [ack_ok bid b h]; simp
    | events hs => rw [events_batch]; exact ih

/-- In every reachable state, a pending batch token implies a
non-empty Archive: pull assigns the token only after reading at least
one row, and the acknowledge that empties the Archive resets the token
in the same critical section. -/
lemma reachable_batch_archive {s : ServerState} (hr : Reachable s)
    (hp : s.current_batch_id ≠ none) : s.heartbeats_archive ≠ [] := by
  induction hr with
  | refl => simp [initState] at hp
  | @tail b c hab hstep ih =>
    cases hstep with
    | hb p now hs =>
      rw [heartbeat_batch] at hp
      rw [heartbeat_archive]
      exact ih hp
    | monitor now hs =>
      rw [monitor_batch] at hp
      rw [monitor_archive]
      exact ih hp
    | rotate now hs =>
      rw [rotator_batch] at hp
      exact rotator_archive_ne_nil now b (ih hp)
    | pull newId hs hId =>
      rw [pull_batch] at hp
      rw [pull_archive_frame]
      by_cases h : b.heartbeats_archive.isEmpty
      · exact ih (by simpa [h] using hp)
      · simpa [List.isEmpty_iff] using h
    | ack bid hs =>
      by_cases h : (falsy bid || bid != b.current_batch_id) = true
      · rw [ack_fail bid b h] at hp ⊢; exact ih hp
      · rw [ack_ok bid b h] at hp; simp at hp
    | events hs =>
      rw [events_batch] at hp
      rw [events_archive]
      exact ih hp

/-! ### Heartbeat unfolding -/

/-- The heartbeat handler on a payload that passes validation. -/
lemma heartbeat_valid (p : HeartbeatPayload) (now : Int) (s : ServerState)
    (h1 : falsy p.node = false) (h2 : falsy p.node_type = false) :
    heartbeat p now s =
      (.ok,
       { s with
         heartbeats := insertIgnore s.heartbeats
           ⟨p.node.getD "", p.node_type.getD "", now, mkSeq (p.node.getD "") now⟩
         node_status := registryUpsert s.node_status
           (p.node.getD "") (p.node_type.getD "") now
         event_queue :=
           if (registryLookup s.node_status (p.node.getD "")).isNone
              || (registryLookup s.node_status (p.node.getD "")).map
                   NodeStatus.status == some .offline
           then s.event_queue ++ [⟨p.node.getD "", "online", now, p.node_type.getD ""⟩]
           else s.event_queue }) := by
  unfold heartbeat
  rw [h1, h2]
  rfl

lemma heartbeat_ok (p : HeartbeatPayload) (now : Int) (s : ServerState)
    (h1 : falsy p.node = false) (h2 : falsy p.node_type = false) :
    (heartbeat p now s).1 = .ok := by
  rw [heartbeat_valid p now s h1 h2]

lemma heartbeat_buffer (p : HeartbeatPayload) (now : Int) (s : ServerState)
    (h1 : falsy p.node = false) (h2 : falsy p.node_type = false) :
    (heartbeat p now s).2.heartbeats
      = insertIgnore s.heartbeats
          ⟨p.node.getD "", p.node_type.getD "", now, mkSeq (p.node.getD "") now⟩ := by
  rw [heartbeat_valid p now s h1 h2]

lemma buffer_rotator_eq (now : Int) (s : ServerState) (oldest : Int)
    (hmin : minReceived s.heartbeats = some oldest) :
    buffer_rotator now s =
      if oldest == 0 then s
      else if now - oldest < BUFFER_ROTATE_SECONDS then s
      else { s with
             heartbeats_archive :=
               insertIgnoreAll s.heartbeats_archive s.heartbeats
             heartbeats := [] } := by
  unfold buffer_rotator
  rw [hmin]

lemma insertIgnore_idem (l : List HB) (h : HB) :
    insertIgnore (insertIgnore l h) h = insertIgnore l h := by
  have hmem : hasSeq (insertIgnore l h) h.seq = true := by
    rw [hasSeq_insertIgnore]; simp
  show (if hasSeq (insertIgnore l h) h.seq then insertIgnore l h
        else insertIgnore l h ++ [h]) = insertIgnore l h
  rw [hmem]
  rfl

/-- Net effect of a whole heartbeat on the Registry row of the
signal's node (shared by several claims below). -/
lemma heartbeat_registry_lookup (p : HeartbeatPayload) (now : Int)
    (s : ServerState)
    (h1 : falsy p.node = false) (h2 : falsy p.node_type = false) :
    registryLookup (heartbeat p now s).2.node_status (p.node.getD "")
      = some ⟨p.node.getD "",
              ((registryLookup s.node_status (p.node.getD "")).map
                NodeStatus.node_type).getD (p.node_type.getD ""),
              now, .online⟩ := by
  rw [heartbeat_valid p now s h1 h2]
  exact registryLookup_upsert s.node_status (p.node.getD "")
    (p.node_type.getD "") now

/-! ### Monitor-tick lemmas -/

lemma monitor_length (now : Int) (s : ServerState) :
    (monitor_nodes now s).node_status.length = s.node_status.length := by
  unfold monitor_nodes; simp

lemma monitor_get (now : Int) (s : ServerState) (i : Nat)
    (hi : i < s.node_status.length)
    (hi2 : i < (monitor_nodes now s).node_status.length) :
    (monitor_nodes now s).node_status.get ⟨i, hi2⟩
      = (if isSilent now (s.node_status.get ⟨i, hi⟩)
         then { s.node_status.get ⟨i, hi⟩ with status := .offline }
         else s.node_status.get ⟨i, hi⟩) := by
  unfold monitor_nodes
  simp [List.get_eq_getElem, List.getElem_map]

lemma monitor_new_events (now : Int) (s : ServerState) :
    (monitor_nodes now s).event_queue.drop s.event_queue.length
      = (s.node_status.filter (isSilent now)).map
          (fun r => ⟨r.node, "offline", now, r.node_type⟩) := by
  unfold monitor_nodes
  simp [List.drop_left]

lemma monitor_map_node (now : Int) (s : ServerState) :
    (monitor_nodes now s).node_status.map NodeStatus.node
      = s.node_status.map NodeStatus.node := by
  unfold monitor_nodes
  simp only [List.map_map]
  apply List.map_congr_left
  intro r _
  by_cases hr : isSilent now r <;> simp [hr]

/-- No offline event of a tick names a node whose row is not silent
(in particular: a row already offline). -/
lemma event_free_of_not_silent (now : Int) (reg : List NodeStatus)
    (hnd : (reg.map NodeStatus.node).Nodup) (r : NodeStatus) (hr : r ∈ reg)
    (hoff : isSilent now r = false) :
    ∀ e ∈ (reg.filter (isSilent now)).map
        (fun x => (⟨x.node, "offline", now, x.node_type⟩ : Event)),
      e.node ≠ r.node := by
  intro e he hne
  rcases List.mem_map.1 he with ⟨x, hx, hxe⟩
  have hxmem := List.mem_filter.1 hx
  have hnode : x.node = r.node := by rw [← hxe] at hne; exact hne
  have hxr : x = r := List.inj_on_of_nodup_map hnd hxmem.1 hr hnode
  rw [hxr, hoff] at hxmem
  exact Bool.false_ne_true hxmem.2

/-- The offline events of a tick contain exactly one entry for each
silent row (nodes being unique in the registry). -/
lemma event_singleton_of_silent (now : Int) (reg : List NodeStatus)
    (hnd : (reg.map NodeStatus.node).Nodup) (r : NodeStatus) (hr : r ∈ reg)
    (hs : isSilent now r = true) :
    ((reg.filter (isSilent now)).map
        (fun x => (⟨x.node, "offline", now, x.node_type⟩ : Event))).filter
        (fun e => e.node == r.node)
      = [⟨r.node, "offline", now, r.node_type⟩] := by
  induction reg with
  | nil => cases hr
  | cons a t ih =>
    rw [List.map_cons, List.nodup_cons] at hnd
    rcases List.mem_cons.1 hr with rfl | hrt
    · rw [List.filter_cons_of_pos hs, List.map_cons,
        List.filter_cons_of_pos (by simp)]
      have htail : ((t.filter (isSilent now)).map
          (fun x => (⟨x.node, "offline", now, x.node_type⟩ : Event))).filter
          (fun e => e.node == r.node) = [] := by
        rw [List.filter_eq_nil_iff]
        intro e he
        rcases List.mem_map.1 he with ⟨x, hx, hxe⟩
        have hxt := (List.mem_filter.1 hx).1
        rw [← hxe]
        simp only [beq_eq_false_iff_ne, ne_eq, beq_iff_eq]
        intro hc
        exact hnd.1 (List.mem_map.2 ⟨x, hxt, hc⟩)
      rw [htail]
    · have han : (a.node == r.node) = false := by
        simp only [beq_eq_false_iff_ne, ne_eq]
        intro hc
        exact hnd.1 (hc ▸ List.mem_map.2 ⟨r, hrt, rfl⟩)
      by_cases ha : isSilent now a
      · rw [List.filter_cons_of_pos ha, List.map_cons,
          List.filter_cons_of_neg (by simp [han])]
        exact ih hnd.2 hrt
      · rw [List.filter_cons_of_neg ha]
        exact ih hnd.2 hrt

/-! ### A concrete reachable state with a pending batch

One heartbeat from node `"a"` at time 1, a rotation at time 700
(so the record moves to the Archive), then a pull issuing batch id
`"T"`. -/

def s_hb : ServerState := (heartbeat ⟨some "a", some "w", none⟩ 1 initState).2

def s_rot : ServerState := buffer_rotator 700 s_hb

def s_pull : ServerState := (pull_archive "T" s_rot).2

lemma reachable_s_pull : Reachable s_pull := by
  have h1 : Step initState s_hb := Step.hb ⟨some "a", some "w", none⟩ 1 initState
  have h2 : Step s_hb s_rot := Step.rotate 700 s_hb
  have h3 : Step s_rot s_pull := Step.pull "T" s_rot (by decide)
  exact Relation.ReflTransGen.head h1
    (Relation.ReflTransGen.head h2 (Relation.ReflTransGen.single h3))

/-! ### Claim theorems -/

/-- C9: at startup, `init_dbs` deletes the Buffer and Archive database
files and recreates empty schemas, so the new process starts from the
empty state and every record the previous run persisted — including
Archive records never acknowledged by the consumer — is discarded. -/
theorem startup_discards_previous_run (prev : ServerState) :
    init_dbs prev = initState
    ∧ (init_dbs prev).heartbeats = []
    ∧ (init_dbs prev).node_status = []
    ∧ (init_dbs prev).heartbeats_archive = []
    ∧ ∀ h ∈ prev.heartbeats_archive, h ∉ (init_dbs prev).heartbeats_archive := by
  refine ⟨rfl, rfl, rfl, rfl, ?_⟩
  intro h _ hc
  simp [init_dbs, initState] at hc

/-- C10: in every reachable state, a pending batch token
(`current_batch_id` not `None`) implies the Archive is non-empty. -/
theorem pending_token_implies_archive_nonempty (s : ServerState)
    (hr : Reachable s) (hp : s.current_batch_id ≠ none) :
    s.heartbeats_archive ≠ [] :=
  reachable_batch_archive hr hp

theorem pending_token_implies_archive_nonempty_witness :
    Reachable s_pull ∧ s_pull.current_batch_id ≠ none
      ∧ s_pull.heartbeats_archive ≠ [] :=
  ⟨reachable_s_pull, by decide,
   pending_token_implies_archive_nonempty s_pull reachable_s_pull (by decide)⟩

/-- C8: in every reachable state whose Archive is empty, a pull
returns count 0 with an empty data list (and no batch id), changes
nothing, and afterwards no batch token is pending (Idle). -/
theorem pull_empty_archive_idle (s : ServerState) (newId : String)
    (hr : Reachable s) (he : s.heartbeats_archive = []) :
    (pull_archive newId s).1 = ⟨none, 0, []⟩
    ∧ (pull_archive newId s).2 = s
    ∧ (pull_archive newId s).2.current_batch_id = none := by
  have hnone : s.current_batch_id = none := by
    by_contra hc
    exact reachable_batch_archive hr hc he
  unfold pull_archive
  simp [he, hnone]

theorem pull_empty_archive_idle_witness :
    Reachable initState ∧ initState.heartbeats_archive = []
      ∧ ((pull_archive "B" initState).1 = ⟨none, 0, []⟩
         ∧ (pull_archive "B" initState).2 = initState
         ∧ (pull_archive "B" initState).2.current_batch_id = none) :=
  ⟨Relation.ReflTransGen.refl, rfl,
   pull_empty_archive_idle initState "B" Relation.ReflTransGen.refl rfl⟩

/-- C1: in every reachable state, acknowledge succeeds iff the
presented token is non-absent and equal to the currently pending
token; success deletes every Archive record and resets the pending
token (Pending → Idle); any other token gets the 400 conflict response
with the whole state — in particular the Archive record count and the
pending token — unchanged; and re-acknowledging the same token right
after a successful acknowledge fails without mutation. -/
theorem ack_token_match_iff (s : ServerState) (bid : Option String)
    (hr : Reachable s) :
    ((archive_ack bid s).1 = .ok ↔ bid ≠ none ∧ bid = s.current_batch_id)
    ∧ ((archive_ack bid s).1 = .ok →
        (archive_ack bid s).2.heartbeats_archive = []
        ∧ (archive_ack bid s).2.current_batch_id = none)
    ∧ ((archive_ack bid s).1 ≠ .ok →
        (archive_ack bid s).1 = .invalid_batch ∧ (archive_ack bid s).2 = s)
    ∧ ((archive_ack bid s).1 = .ok →
        (archive_ack bid (archive_ack bid s).2).1 = .invalid_batch
        ∧ (archive_ack bid (archive_ack bid s).2).2 = (archive_ack bid s).2) := by
  have hinv := reachable_batch_ne_empty hr
  by_cases hc : (falsy bid || bid != s.current_batch_id) = true
  · rw [ack_fail bid s hc]
    refine ⟨?_, by simp, fun _ => ⟨rfl, rfl⟩, by simp⟩
    constructor
    · intro h; exact absurd h (by simp)
    · rintro ⟨hne, heq⟩
      exfalso
      have hc2 : falsy bid = true ∨ ¬bid = s.current_batch_id := by
        simpa using hc
      rcases hc2 with hf | hbne
      · cases bid with
        | none => exact hne rfl
        | some b =>
          have hb : b = "" := by simpa [falsy] using hf
          exact hinv (by rw [← heq, hb])
      · exact hbne heq
  · have hparts : falsy bid = false ∧ (bid != s.current_batch_id) = false := by
      constructor
      · cases hf : falsy bid
        · rfl
        · exact absurd (by simp [hf]) hc
      · cases hb : (bid != s.current_batch_id)
        · rfl
        · exact absurd (by simp [hb]) hc
    have heq : bid = s.current_batch_id := by
      have h2 := hparts.2
      simpa using h2
    obtain ⟨b, rfl⟩ : ∃ b, bid = some b := by
      cases bid with
      | none => exact absurd hparts.1 (by simp [falsy])
      | some b => exact ⟨b, rfl⟩
    rw [ack_ok (some b) s hc]
    refine ⟨⟨fun _ => ⟨by simp, heq⟩, fun _ => rfl⟩, fun _ => ⟨rfl, rfl⟩,
      by simp, fun _ => ?_⟩
    rw [ack_fail (some b)
      { s with heartbeats_archive := [], current_batch_id := none } (by simp)]
    exact ⟨rfl, rfl⟩

theorem ack_token_match_iff_witness :
    Reachable s_pull
    ∧ (archive_ack (some "T") s_pull).1 = .ok
    ∧ (archive_ack (some "T") s_pull).2.heartbeats_archive = []
    ∧ (archive_ack (some "T") s_pull).2.current_batch_id = none
    ∧ (archive_ack (some "T") (archive_ack (some "T") s_pull).2).1
        = .invalid_batch :=
  have hok : (archive_ack (some "T") s_pull).1 = .ok :=
    (ack_token_match_iff s_pull (some "T") reachable_s_pull).1.2
      ⟨by decide, by decide⟩
  ⟨reachable_s_pull, hok,
   ((ack_token_match_iff s_pull (some "T") reachable_s_pull).2.1 hok).1,
   ((ack_token_match_iff s_pull (some "T") reachable_s_pull).2.1 hok).2,
   ((ack_token_match_iff s_pull (some "T") reachable_s_pull).2.2.2 hok).1⟩

/-- C6: a pull never deletes or modifies any Archive row (the Archive
is identical before and after every pull); a second pull before any
acknowledge re-reads the current Archive and stores a fresh token that
supersedes the previous one, so acknowledging the old token fails
without mutation while acknowledging the newest token succeeds. -/
theorem pull_nondestructive_supersede (s : ServerState) (t1 t2 : String)
    (ha : s.heartbeats_archive ≠ []) (hne : t1 ≠ t2) (ht2 : t2 ≠ "") :
    (∀ (u : ServerState) (t : String),
        (pull_archive t u).2.heartbeats_archive = u.heartbeats_archive)
    ∧ (pull_archive t2 (pull_archive t1 s).2).1.data
        = (pull_archive t1 s).2.heartbeats_archive
    ∧ (pull_archive t2 (pull_archive t1 s).2).1.batch_id = some t2
    ∧ (pull_archive t2 (pull_archive t1 s).2).2.current_batch_id = some t2
    ∧ (archive_ack (some t1)
        (pull_archive t2 (pull_archive t1 s).2).2).1 = .invalid_batch
    ∧ (archive_ack (some t1) (pull_archive t2 (pull_archive t1 s).2).2).2
        = (pull_archive t2 (pull_archive t1 s).2).2
    ∧ (archive_ack (some t2)
        (pull_archive t2 (pull_archive t1 s).2).2).1 = .ok := by
  have ha1 : (pull_archive t1 s).2.heartbeats_archive = s.heartbeats_archive :=
    pull_archive_frame t1 s
  have hbe : (pull_archive t1 s).2.heartbeats_archive.isEmpty = false := by
    rw [ha1]
    simpa [List.isEmpty_iff] using ha
  have hgen : ∀ (u : ServerState), u.heartbeats_archive.isEmpty = false →
      pull_archive t2 u =
        ({ batch_id := some t2,
           count := u.heartbeats_archive.length,
           data := u.heartbeats_archive },
         { u with current_batch_id := some t2 }) := by
    intro u hu
    unfold pull_archive
    simp [hu]
  have hpull2 := hgen (pull_archive t1 s).2 hbe
  have hackold : (falsy (some t1)
      || (some t1 != ({ (pull_archive t1 s).2 with
            current_batch_id := some t2 } : ServerState).current_batch_id))
      = true := by
    have : (some t1 != some t2) = true := by
      simp only [bne_iff_ne, ne_eq, Option.some.injEq]
      exact hne
    simp [this]
  have hacknew : ¬((falsy (some t2)
      || (some t2 != ({ (pull_archive t1 s).2 with
            current_batch_id := some t2 } : ServerState).current_batch_id))
      = true) := by
    simp [falsy, ht2]
  refine ⟨fun u t => pull_archive_frame t u, ?_, ?_, ?_, ?_, ?_, ?_⟩
  · rw [hpull2]
  · rw [hpull2]
  · rw [hpull2]
  · rw [hpull2, ack_fail _ _ hackold]
  · rw [hpull2, ack_fail _ _ hackold]
  · rw [hpull2, ack_ok _ _ hacknew]

def archOne : ServerState :=
  { heartbeats := []
    node_status := []
    heartbeats_archive := [⟨"a", "w", 1, "a:1"⟩]
    current_batch_id := none
    event_queue := [] }

/-- C2: a Monitor tick demotes a node to offline exactly when its row
is online and `now − last_seen` strictly exceeds the threshold; the
demotion changes nothing but the status field (node, node type, and in
particular last-seen are untouched); a row already offline is left
untouched and no event names it; each demoted node gets exactly one
offline event in its tick; and a later tick (at any time `now2`) emits
no further event for a node demoted by this one while it stays
offline. -/
theorem monitor_tick_demotion_once (s : ServerState) (now now2 : Int)
    (i : Nat) (hi : i < s.node_status.length)
    (hi2 : i < (monitor_nodes now s).node_status.length)
    (hnd : (s.node_status.map NodeStatus.node).Nodup) :
    ((monitor_nodes now s).node_status.length = s.node_status.length)
    ∧ (((monitor_nodes now s).node_status.get ⟨i, hi2⟩).status = .offline ↔
        ((s.node_status.get ⟨i, hi⟩).status = .offline
         ∨ ((s.node_status.get ⟨i, hi⟩).status = .online
            ∧ now - (s.node_status.get ⟨i, hi⟩).last_seen > OFFLINE_THRESHOLD)))
    ∧ ((monitor_nodes now s).node_status.get ⟨i, hi2⟩).node
        = (s.node_status.get ⟨i, hi⟩).node
    ∧ ((monitor_nodes now s).node_status.get ⟨i, hi2⟩).node_type
        = (s.node_status.get ⟨i, hi⟩).node_type
    ∧ ((monitor_nodes now s).node_status.get ⟨i, hi2⟩).last_seen
        = (s.node_status.get ⟨i, hi⟩).last_seen
    ∧ ((s.node_status.get ⟨i, hi⟩).status = .offline →
        (monitor_nodes now s).node_status.get ⟨i, hi2⟩
            = s.node_status.get ⟨i, hi⟩
        ∧ ∀ e ∈ (monitor_nodes now s).event_queue.drop s.event_queue.length,
            e.node ≠ (s.node_status.get ⟨i, hi⟩).node)
    ∧ (isSilent now (s.node_status.get ⟨i, hi⟩) = true →
        ((monitor_nodes now s).event_queue.drop s.event_queue.length).filter
            (fun e => e.node == (s.node_status.get ⟨i, hi⟩).node)
          = [⟨(s.node_status.get ⟨i, hi⟩).node, "offline", now,
              (s.node_status.get ⟨i, hi⟩).node_type⟩]
        ∧ ∀ e ∈ (monitor_nodes now2 (monitor_nodes now s)).event_queue.drop
              (monitor_nodes now s).event_queue.length,
            e.node ≠ (s.node_status.get ⟨i, hi⟩).node) := by
  have hget := monitor_get now s i hi hi2
  set r := s.node_status.get ⟨i, hi⟩ with hr
  have hmem : r ∈ s.node_status := by rw [hr]; exact List.get_mem _ _ _
  refine ⟨monitor_length now s, ?_, ?_, ?_, ?_, ?_, ?_⟩
  · rw [hget]
    by_cases hsil : isSilent now r
    · rw [if_pos hsil]
      simp only [isSilent, Bool.and_eq_true, beq_iff_eq,
        decide_eq_true_eq] at hsil
      simp [hsil.1, hsil.2]
    · rw [if_neg hsil]
      simp only [isSilent, Bool.and_eq_true, beq_iff_eq, decide_eq_true_eq,
        not_and] at hsil
      constructor
      · exact Or.inl
      · rintro (h | ⟨ho, hs⟩)
        · exact h
        · exact absurd hs (hsil ho)
  · rw [hget]
    by_cases hsil : isSilent now r
    · rw [if_pos hsil]
    · rw [if_neg hsil]
  · rw [hget]
    by_cases hsil : isSilent now r
    · rw [if_pos hsil]
    · rw [if_neg hsil]
  · rw [hget]
    by_cases hsil : isSilent now r
    · rw [if_pos hsil]
    · rw [if_neg hsil]
  · intro hoff
    have hsil : isSilent now r = false := by
      simp [isSilent, hoff]
    refine ⟨by rw [hget, if_neg (by simp [hsil])], ?_⟩
    rw [monitor_new_events]
    exact event_free_of_not_silent now s.node_status hnd r hmem hsil
  · intro hsil
    constructor
    · rw [monitor_new_events]
      exact event_singleton_of_silent now s.node_status hnd r hmem hsil
    · have hnd2 : ((monitor_nodes now s).node_status.map NodeStatus.node).Nodup := by
        rw [monitor_map_node]; exact hnd
      have hget2 : (monitor_nodes now s).node_status.get ⟨i, hi2⟩
          = { r with status := .offline } := by
        rw [hget, if_pos hsil]
      have hmem2 : ({ r with status := .offline } : NodeStatus)
          ∈ (monitor_nodes now s).node_status := by
        rw [← hget2]; exact List.get_mem _ _ _
      have hsil2 : isSilent now2 ({ r with status := .offline } : NodeStatus)
          = false := by
        simp [isSilent]
      have hfree := event_free_of_not_silent now2
        (monitor_nodes now s).node_status hnd2 _ hmem2 hsil2
      intro e he
      rw [monitor_new_events] at he
      exact hfree e he

/-- A Registry with two online nodes: `"a"` last seen at 0 and `"b"`
last seen at 50. -/
def regPair : ServerState :=
  { heartbeats := []
    node_status := [⟨"a", "w", 0, .online⟩, ⟨"b", "w", 50, .online⟩]
    heartbeats_archive := []
    current_batch_id := none
    event_queue := [] }

theorem monitor_tick_demotion_once_witness :
    (0 : Nat) < regPair.node_status.length
    ∧ (0 : Nat) < (monitor_nodes 100 regPair).node_status.length
    ∧ (regPair.node_status.map NodeStatus.node).Nodup
    ∧ isSilent 100 (regPair.node_status.get ⟨0, by decide⟩) = true
    ∧ ((monitor_nodes 100 regPair).event_queue.drop
        regPair.event_queue.length).filter
        (fun e => e.node == (regPair.node_status.get ⟨0, by decide⟩).node)
      = [⟨(regPair.node_status.get ⟨0, by decide⟩).node, "offline", 100,
          (regPair.node_status.get ⟨0, by decide⟩).node_type⟩] :=
  ⟨by decide, by decide, by decide, by decide,
   ((monitor_tick_demotion_once regPair 100 150 0 (by decide) (by decide)
     (by decide)).2.2.2.2.2.2 (by decide)).1⟩

/-- C7: submitting the same signal twice (same node, same recorded
timestamp) yields exactly one Buffer record carrying that dedup key —
the second insert is silently skipped — and the second submission
still returns the success response. -/
theorem duplicate_signal_idempotent (s : ServerState)
    (node node_type : String) (now : Int)
    (hn : node ≠ "") (ht : node_type ≠ "")
    (hnd : (s.heartbeats.map HB.seq).Nodup) :
    (heartbeat ⟨some node, some node_type, none⟩ now s).1 = .ok
    ∧ (heartbeat ⟨some node, some node_type, none⟩ now
        (heartbeat ⟨some node, some node_type, none⟩ now s).2).1 = .ok
    ∧ (heartbeat ⟨some node, some node_type, none⟩ now
        (heartbeat ⟨some node, some node_type, none⟩ now s).2).2.heartbeats
      = (heartbeat ⟨some node, some node_type, none⟩ now s).2.heartbeats
    ∧ (heartbeat ⟨some node, some node_type, none⟩ now
        (heartbeat ⟨some node, some node_type, none⟩ now s).2).2.heartbeats.countP
        (fun h => h.seq == mkSeq node now) = 1 := by
  have h1 : falsy (⟨some node, some node_type, none⟩ : HeartbeatPayload).node
      = false := by simpa [falsy] using hn
  have h2 : falsy (⟨some node, some node_type, none⟩ : HeartbeatPayload).node_type
      = false := by simpa [falsy] using ht
  have hbuf2 : (heartbeat ⟨some node, some node_type, none⟩ now
      (heartbeat ⟨some node, some node_type, none⟩ now s).2).2.heartbeats
      = insertIgnore s.heartbeats ⟨node, node_type, now, mkSeq node now⟩ := by
    rw [heartbeat_buffer _ _ _ h1 h2, heartbeat_buffer _ _ _ h1 h2]
    exact insertIgnore_idem s.heartbeats ⟨node, node_type, now, mkSeq node now⟩
  refine ⟨heartbeat_ok _ _ _ h1 h2, heartbeat_ok _ _ _ h1 h2, ?_, ?_⟩
  · rw [hbuf2, heartbeat_buffer _ _ _ h1 h2]
    rfl
  · rw [hbuf2]
    have hnd1 : ((insertIgnore s.heartbeats
        ⟨node, node_type, now, mkSeq node now⟩).map HB.seq).Nodup :=
      seq_nodup_insertIgnore _ hnd
    rw [countP_seq_nodup _ _ hnd1]
    have hin : hasSeq (insertIgnore s.heartbeats
        ⟨node, node_type, now, mkSeq node now⟩) (mkSeq node now) = true := by
      rw [show (mkSeq node now)
            = (⟨node, node_type, now, mkSeq node now⟩ : HB).seq from rfl,
          hasSeq_insertIgnore]
      simp
    rw [hin]
    rfl

theorem duplicate_signal_idempotent_witness :
    ("a" : String) ≠ "" ∧ (initState.heartbeats.map HB.seq).Nodup
    ∧ (heartbeat ⟨some "a", some "w", none⟩ 5
        (heartbeat ⟨some "a", some "w", none⟩ 5 initState).2).1 = .ok
    ∧ (heartbeat ⟨some "a", some "w", none⟩ 5
        (heartbeat ⟨some "a", some "w", none⟩ 5 initState).2).2.heartbeats.countP
        (fun h => h.seq == mkSeq "a" 5) = 1 :=
  ⟨by decide, by decide,
   (duplicate_signal_idempotent initState "a" "w" 5 (by decide) (by decide)
     (by decide)).2.1,
   (duplicate_signal_idempotent initState "a" "w" 5 (by decide) (by decide)
     (by decide)).2.2.2⟩

/-- A Registry already holding node `"a"` with node type `"old"`,
offline, last seen at 0. -/
def regOld : ServerState :=
  { heartbeats := []
    node_status := [⟨"a", "old", 0, .offline⟩]
    heartbeats_archive := []
    current_batch_id := none
    event_queue := [] }

/-- C3 counterexample: an accepted signal from node `"a"` with node
type `"new"`, while the Registry already holds `"a"` with node type
`"old"`, leaves the stored node type `"old"` — the upsert's
ON CONFLICT clause updates only `last_seen` and `status`, so the
claim's "node type equals the signal's node type … including when the
node already existed with a different node type" fails. -/
theorem heartbeat_node_type_not_updated_cex :
    (heartbeat ⟨some "a", some "new", none⟩ 5 regOld).1 = .ok
    ∧ registryLookup
        (heartbeat ⟨some "a", some "new", none⟩ 5 regOld).2.node_status "a"
        = some ⟨"a", "old", 5, .online⟩
    ∧ (registryLookup
        (heartbeat ⟨some "a", some "new", none⟩ 5 regOld).2.node_status "a").map
        NodeStatus.node_type ≠ some "new" := by decide

/-- C3 (amended): every accepted signal upserts the Registry entry for
its node so that afterwards the entry exists with status online and
last-seen equal to the recorded timestamp; the node type is taken from
the signal only when the node had no Registry row yet — a node that
already existed keeps its previously stored node type. -/
theorem heartbeat_upsert_registry (p : HeartbeatPayload) (now : Int)
    (s : ServerState)
    (h1 : falsy p.node = false) (h2 : falsy p.node_type = false) :
    registryLookup (heartbeat p now s).2.node_status (p.node.getD "")
      = some ⟨p.node.getD "",
              ((registryLookup s.node_status (p.node.getD "")).map
                NodeStatus.node_type).getD (p.node_type.getD ""),
              now, .online⟩ :=
  heartbeat_registry_lookup p now s h1 h2

theorem heartbeat_upsert_registry_witness :
    falsy (some "a") = false ∧ falsy (some "w") = false
    ∧ registryLookup
        (heartbeat ⟨some "a", some "w", none⟩ 7 initState).2.node_status "a"
        = some ⟨"a", "w", 7, .online⟩ :=
  ⟨by decide, by decide, by
    have h := heartbeat_upsert_registry ⟨some "a", some "w", none⟩ 7 initState
      (by decide) (by decide)
    exact h⟩

/-- C4 counterexample: a payload that supplies `timestamp = 5` while
the server clock reads 100 gets recorded with timestamp 100 in the
Buffer record, the dedup key, and the Registry last-seen — the
supplied timestamp is never read, refuting "the timestamp recorded is
the timestamp supplied by the source". -/
theorem heartbeat_ignores_supplied_timestamp_cex :
    (heartbeat ⟨some "a", some "w", some 5⟩ 100 initState).1 = .ok
    ∧ (heartbeat ⟨some "a", some "w", some 5⟩ 100 initState).2.heartbeats
        = [⟨"a", "w", 100, "a:100"⟩]
    ∧ (∀ h ∈ (heartbeat ⟨some "a", some "w", some 5⟩ 100 initState).2.heartbeats,
        h.received_at ≠ 5)
    ∧ (registryLookup
        (heartbeat ⟨some "a", some "w", some 5⟩ 100 initState).2.node_status
        "a").map NodeStatus.last_seen = some 100 := by decide

/-- C4 (amended): the timestamp recorded for every accepted signal —
in the Buffer record, in the dedup key, and as the Registry last-seen
— is always the server's current time `now`; the payload's timestamp
field is never read, so supplying one has no effect on the handler's
result. -/
theorem heartbeat_records_server_time (p : HeartbeatPayload) (now : Int)
    (s : ServerState)
    (h1 : falsy p.node = false) (h2 : falsy p.node_type = false) :
    (∀ h, h ∈ (heartbeat p now s).2.heartbeats → h ∉ s.heartbeats →
        h = ⟨p.node.getD "", p.node_type.getD "", now,
             mkSeq (p.node.getD "") now⟩)
    ∧ (registryLookup (heartbeat p now s).2.node_status (p.node.getD "")).map
        NodeStatus.last_seen = some now
    ∧ heartbeat p now s = heartbeat { p with timestamp := none } now s := by
  refine ⟨?_, ?_, rfl⟩
  · intro h hm hnot
    rw [heartbeat_buffer p now s h1 h2] at hm
    rcases mem_insertIgnore hm with hin | rfl
    · exact absurd hin hnot
    · rfl
  · rw [heartbeat_registry_lookup p now s h1 h2]
    rfl

theorem heartbeat_records_server_time_witness :
    falsy (some "a") = false ∧ falsy (some "w") = false
    ∧ (registryLookup
        (heartbeat ⟨some "a", some "w", some 5⟩ 100 initState).2.node_status
        (((⟨some "a", some "w", some 5⟩ : HeartbeatPayload)).node.getD "")).map
        NodeStatus.last_seen = some 100
    ∧ heartbeat ⟨some "a", some "w", some 5⟩ 100 initState
        = heartbeat ⟨some "a", some "w", none⟩ 100 initState :=
  ⟨by decide, by decide,
   (heartbeat_records_server_time ⟨some "a", some "w", some 5⟩ 100 initState
     (by decide) (by decide)).2.1,
   (heartbeat_records_server_time ⟨some "a", some "w", some 5⟩ 100 initState
     (by decide) (by decide)).2.2⟩

/-- A Buffer holding one record received at time 1. -/
def bufOne : ServerState :=
  { heartbeats := [⟨"a", "w", 1, "a:1"⟩]
    node_status := []
    heartbeats_archive := []
    current_batch_id := none
    event_queue := [] }

/-- C5 counterexample: at `now = 601` the single buffered record (from
time 1) has age exactly `BUFFER_ROTATE_SECONDS = 600`, which does not
strictly exceed the threshold — yet the tick is not a no-op: it moves
the record into the Archive and empties the Buffer, refuting "moves
records only when that age strictly exceeds the threshold". -/
theorem rotator_moves_at_exact_threshold_cex :
    ¬(601 - (1 : Int) > BUFFER_ROTATE_SECONDS)
    ∧ minReceived bufOne.heartbeats = some 1
    ∧ bufOne.heartbeats ≠ []
    ∧ (buffer_rotator 601 bufOne).heartbeats = []
    ∧ (buffer_rotator 601 bufOne).heartbeats_archive = [⟨"a", "w", 1, "a:1"⟩]
    ∧ buffer_rotator 601 bufOne ≠ bufOne := by decide

/-- C5 (amended): a Rotator tick is a no-op when the Buffer is empty
or when `now - oldest < BUFFER_ROTATE_SECONDS`; it moves the records
exactly when `now - oldest ≥ BUFFER_ROTATE_SECONDS` — that is, already
when the oldest record's age equals the threshold, not only when it
strictly exceeds it.  Immediately after a triggered rotation the
Buffer is empty and the Archive has grown by exactly the number of
previously-buffered records whose dedup key was not already archived
(duplicates dropped silently by insert-or-ignore).  The oldest
timestamp is assumed positive: the handler's Python truthiness test
conflates a 0 timestamp with an empty Buffer. -/
theorem rotator_threshold_behavior (s : ServerState) (now oldest : Int)
    (hmin : minReceived s.heartbeats = some oldest) (hpos : 0 < oldest)
    (hnd : (s.heartbeats.map HB.seq).Nodup) :
    (∀ u : ServerState, u.heartbeats = [] → buffer_rotator now u = u)
    ∧ (now - oldest < BUFFER_ROTATE_SECONDS → buffer_rotator now s = s)
    ∧ (BUFFER_ROTATE_SECONDS ≤ now - oldest →
        (buffer_rotator now s).heartbeats = []
        ∧ (buffer_rotator now s).heartbeats_archive
            = insertIgnoreAll s.heartbeats_archive s.heartbeats
        ∧ (buffer_rotator now s).heartbeats_archive.length
            = s.heartbeats_archive.length
              + (s.heartbeats.filter
                  (fun h => !(hasSeq s.heartbeats_archive h.seq))).length) := by
  have hne0 : ¬(oldest = 0) := by omega
  refine ⟨?_, ?_, ?_⟩
  · intro u hu
    unfold buffer_rotator
    rw [hu]
    rfl
  · intro hlt
    rw [buffer_rotator_eq now s oldest hmin,
      if_neg (show ¬((oldest == 0) = true) from by simpa using hne0),
      if_pos hlt]
  · intro hge
    have hnlt : ¬(now - oldest < BUFFER_ROTATE_SECONDS) := by omega
    rw [buffer_rotator_eq now s oldest hmin,
      if_neg (show ¬((oldest == 0) = true) from by simpa using hne0),
      if_neg hnlt]
    exact ⟨rfl, rfl, length_insertIgnoreAll s.heartbeats s.heartbeats_archive hnd⟩

theorem rotator_threshold_behavior_witness :
    minReceived bufOne.heartbeats = some 1 ∧ (0 : Int) < 1
    ∧ (bufOne.heartbeats.map HB.seq).Nodup
    ∧ (buffer_rotator 601 bufOne).heartbeats = []
    ∧ (buffer_rotator 601 bufOne).heartbeats_archive.length
        = bufOne.heartbeats_archive.length
          + (bufOne.heartbeats.filter
              (fun h => !(hasSeq bufOne.heartbeats_archive h.seq))).length :=
  ⟨by decide, by decide, by decide,
   ((rotator_threshold_behavior bufOne 601 1 (by decide) (by decide)
     (by decide)).2.2 (by decide)).1,
   ((rotator_threshold_behavior bufOne 601 1 (by decide) (by decide)
     (by decide)).2.2 (by decide)).2.2⟩

theorem pull_nondestructive_supersede_witness :
    archOne.heartbeats_archive ≠ []
    ∧ (pull_archive "T2" (pull_archive "T1" archOne).2).2.current_batch_id
        = some "T2"
    ∧ (archive_ack (some "T1")
        (pull_archive "T2" (pull_archive "T1" archOne).2).2).1 = .invalid_batch
    ∧ (archive_ack (some "T2")
        (pull_archive "T2" (pull_archive "T1" archOne).2).2).1 = .ok :=
  ⟨by decide,
   (pull_nondestructive_supersede archOne "T1" "T2" (by decide) (by decide)
     (by decide)).2.2.2.1,
   (pull_nondestructive_supersede archOne "T1" "T2" (by decide) (by decide)
     (by decide)).2.2.2.2.1,
   (pull_nondestructive_supersede archOne "T1" "T2" (by decide) (by decide)
     (by decide)).2.2.2.2.2.2⟩

end Central
